import Mathlib

/-!
# Verification of the k8s-xcuda-dra allocation engine

A shallow embedding of the GPU allocation engine of `k8s-xcuda-dra`
(`cmd/dra-example-controller/gpu.go`, the controller driver file, and the
NodeAllocationState client), together with proofs about its operations:
the pure greedy device allocator, the evaluate / commit / release entry
points, the staging cache discipline, and the per-node record invariant.

Go maps are embedded as association lists with insert-overwrite and
delete-by-key semantics; Go map iteration order (unspecified by Go) is
fixed to list order, which is one admissible refinement.  Durable-store
I/O outcomes (fetch results, update success) are passed in explicitly as
parameters, since the engine treats the store as an external collaborator.
-/

namespace XCudaDra

/-- Association-list lookup, the embedding of a Go map read `m[k]`. -/
def mfind {α : Type} (m : List (String × α)) (k : String) : Option α :=
  (m.find? (fun p => p.1 == k)).map Prod.snd

/-- Association-list insert, the embedding of a Go map write `m[k] = v`:
overwrites the existing binding for `k` if present, otherwise appends. -/
def minsert {α : Type} : List (String × α) → String → α → List (String × α)
  | [], k, v => [(k, v)]
  | p :: rest, k, v => if p.1 == k then (k, v) :: rest else p :: minsert rest k v

/-- Association-list delete, the embedding of Go `delete(m, k)`. -/
def merase {α : Type} (m : List (String × α)) (k : String) : List (String × α) :=
  m.filter (fun p => p.1 != k)

theorem mfind_nil {α : Type} (k : String) : mfind ([] : List (String × α)) k = none := rfl

theorem mfind_cons {α : Type} (p : String × α) (m : List (String × α)) (k : String) :
    mfind (p :: m) k = if p.1 == k then some p.2 else mfind m k := by
  simp only [mfind, List.find?]
  by_cases h : p.1 == k
  · simp [h]
  · simp [h]

theorem mfind_minsert_self {α : Type} (m : List (String × α)) (k : String) (v : α) :
    mfind (minsert m k v) k = some v := by
  induction m with
  | nil => simp [minsert, mfind_cons]
  | cons p rest ih =>
    by_cases h : p.1 == k
    · simp [minsert, h, mfind_cons]
    · simp [minsert, h, mfind_cons, ih]

theorem mfind_minsert_ne {α : Type} (m : List (String × α)) (k k' : String) (v : α)
    (hne : k ≠ k') : mfind (minsert m k v) k' = mfind m k' := by
  induction m with
  | nil => simp [minsert, mfind_cons, mfind_nil, hne]
  | cons p rest ih =>
    by_cases h : p.1 == k
    · have hpk : p.1 = k := by simpa using h
      simp [minsert, h, mfind_cons, hpk, hne, mfind]
    · have hstep : minsert (p :: rest) k v = p :: minsert rest k v := by
        simp [minsert, h]
      rw [hstep, mfind_cons, mfind_cons, ih]

theorem mfind_merase_self {α : Type} (m : List (String × α)) (k : String) :
    mfind (merase m k) k = none := by
  induction m with
  | nil => rfl
  | cons p rest ih =>
    by_cases h : p.1 == k
    · have : (p.1 != k) = false := by simp_all
      simpa [merase, this] using ih
    · have : (p.1 != k) = true := by simp_all
      simpa [merase, this, mfind_cons, h] using ih

theorem mfind_merase_ne {α : Type} (m : List (String × α)) (k k' : String)
    (hne : k ≠ k') : mfind (merase m k) k' = mfind m k' := by
  induction m with
  | nil => rfl
  | cons p rest ih =>
    by_cases h : p.1 == k
    · have hpk : p.1 = k := by simpa using h
      have : (p.1 != k) = false := by simp_all
      have hk' : (p.1 == k') = false := by
        simp only [beq_eq_false_iff_ne, ne_eq, hpk]
        exact hne
      simp [merase, this, mfind_cons, hk'] at ih ⊢
      simpa [merase] using ih
    · have : (p.1 != k) = true := by simp_all
      simp only [merase, List.filter] at ih ⊢
      simp only [this, mfind_cons]
      by_cases h2 : p.1 == k'
      · simp [h2]
      · simpa [h2, merase] using ih

/-- If lookup succeeds, the binding is a member of the list. -/
theorem mem_of_mfind {α : Type} (m : List (String × α)) (k : String) (v : α)
    (h : mfind m k = some v) : (k, v) ∈ m := by
  induction m with
  | nil => simp [mfind] at h
  | cons p rest ih =>
    rw [mfind_cons] at h
    by_cases hp : p.1 == k
    · have hpk : p.1 = k := by simpa using hp
      simp only [hp, if_true] at h
      have hpv : p = (k, v) := by
        cases p
        simp_all
      rw [← hpv]
      exact List.mem_cons_self _ _
    · simp only [hp, if_false] at h
      exact List.mem_cons_of_mem _ (ih h)

/-! ## Data model (`nascrd` types, modelled from spec §3/§6 since the
api type definitions are not part of the provided sources; shapes follow
the durable record shape given in §6 and the accesses made by the code) -/

/-- GPU inventory entry (`nascrd.AllocatableGpu`): identified by UUID. -/
structure AllocatableGpu where
  uuid : String
  deriving DecidableEq, Repr

/-- Embeds `nascrd.AllocatableDevice`: tagged union over device kinds with
(currently) one variant, GPU; the `Type()` switch in the source always
selects the GPU arm and skips nothing. -/
inductive AllocatableDevice where
  | gpu (g : AllocatableGpu)
  deriving DecidableEq, Repr

/-- The identity of an inventory device. -/
def AllocatableDevice.uuid : AllocatableDevice → String
  | .gpu g => g.uuid

/-- Embeds `nascrd.AllocatedGpu`: one device bound to a claim. -/
structure AllocatedGpu where
  uuid : String
  deriving DecidableEq, Repr

/-- Embeds `nascrd.AllocatedGpus`: the GPU arm of an allocation. -/
structure AllocatedGpus where
  devices : List AllocatedGpu
  deriving DecidableEq, Repr

/-- Embeds `nascrd.AllocatedDevices`: tagged union keyed by device kind; only the
GPU variant exists, so `Type()` always reports the GPU kind. -/
structure AllocatedDevices where
  gpu : AllocatedGpus
  deriving DecidableEq, Repr

/-- The device-identity set (as a list) of one claim's allocation. -/
def devicesOf (ad : AllocatedDevices) : List String :=
  ad.gpu.devices.map AllocatedGpu.uuid

/-- The `AllocatedClaims` map: claim UID → allocated devices. -/
abbrev AllocMap := List (String × AllocatedDevices)

/-- Embeds `nascrd.NodeAllocationStateSpec`. -/
structure NodeAllocationStateSpec where
  allocatableDevices : List AllocatableDevice
  allocatedClaims : AllocMap
  deriving DecidableEq, Repr

/-- Embeds `nascrd.NodeAllocationStateStatusReady`. -/
def NodeAllocationStateStatusReady : String := "Ready"

/-- Embeds `nascrd.NodeAllocationState`: the durable per-node record. -/
structure NodeAllocationState where
  name : String
  status : String
  spec : NodeAllocationStateSpec
  deriving DecidableEq, Repr

/-- Embeds `gpucrd.GpuClaimParametersSpec` (Go `Count` is an `int`). -/
structure GpuClaimParametersSpec where
  count : Int
  deriving DecidableEq, Repr

/-- The slice of `controller.ClaimAllocation` the engine reads and writes:
the claim's UID, its GPU claim parameters, and the unsuitable-nodes list. -/
structure ClaimAllocation where
  claimUID : String
  count : Int
  unsuitableNodes : List String
  deriving DecidableEq, Repr

/-! ## `gpudriver.ValidateClaimParameters` -/

/-- Embeds `gpudriver.ValidateClaimParameters`: `some msg` embeds a non-nil Go
error, `none` embeds nil. -/
def ValidateClaimParameters (claimParams : GpuClaimParametersSpec) : Option String :=
  if claimParams.count < 1 then
    some ("invalid number of GPUs requested: " ++ toString claimParams.count)
  else
    none

/-! ## `gpudriver.allocate` (the pure device allocator) -/

/-- The UUIDs appearing in the node's inventory. -/
def inventoryUUIDs (s : NodeAllocationStateSpec) : List String :=
  s.allocatableDevices.map AllocatableDevice.uuid

/-- All device UUIDs bound in a committed map. -/
def committedUUIDs (m : AllocMap) : List String :=
  (m.map (fun p => devicesOf p.2)).flatten

/-- The free pool: the `available` map of `gpudriver.allocate` after the
two set-up loops — inventory keyed by UUID (hence deduplicated), minus
every device bound in `allocatedClaims`. -/
def freePool (s : NodeAllocationStateSpec) : List String :=
  ((inventoryUUIDs s).dedup).filter (fun u => u ∉ committedUUIDs s.allocatedClaims)

/-- The per-claim loop of `gpudriver.allocate`, threading the free pool
and the result map.  A claim with a committed assignment gets exactly
that assignment and leaves the pool untouched; a new claim greedily takes
up to `count` devices from the pool (the Go inner loop takes the first
map entry `count` times), possibly fewer if the pool runs dry. -/
def allocLoop (committed : AllocMap) :
    List ClaimAllocation → List String → List (String × List String) →
    List (String × List String)
  | [], _, acc => acc
  | ca :: rest, avail, acc =>
    match mfind committed ca.claimUID with
    | some devs => allocLoop committed rest avail (minsert acc ca.claimUID (devicesOf devs))
    | none =>
        allocLoop committed rest (avail.drop ca.count.toNat)
          (minsert acc ca.claimUID (avail.take ca.count.toNat))

/-- Embeds `gpudriver.allocate`: claim UID → list of assigned device UUIDs. -/
def gpuAllocate (s : NodeAllocationStateSpec) (gpucas : List ClaimAllocation) :
    List (String × List String) :=
  allocLoop s.allocatedClaims gpucas (freePool s) []

/-- Reading `allocated[claimUID]` in Go: a missing key yields `nil`
(length 0). -/
def allocatedFor (allocated : List (String × List String)) (uid : String) : List String :=
  (mfind allocated uid).getD []

example :
    gpuAllocate ⟨[.gpu ⟨"A"⟩, .gpu ⟨"B"⟩], []⟩
      [⟨"c1", 1, []⟩, ⟨"c2", 2, []⟩] = [("c1", ["A"]), ("c2", ["B"])] := by decide

example :
    gpuAllocate ⟨[.gpu ⟨"A"⟩, .gpu ⟨"B"⟩], [("c0", ⟨⟨[⟨"B"⟩]⟩⟩)]⟩
      [⟨"c0", 1, []⟩, ⟨"c1", 1, []⟩] = [("c0", ["B"]), ("c1", ["A"])] := by decide

/-! ## Allocator lemmas -/

theorem allocLoop_cons_committed (committed : AllocMap) (ca : ClaimAllocation)
    (rest : List ClaimAllocation) (avail : List String)
    (acc : List (String × List String)) (devs : AllocatedDevices)
    (h : mfind committed ca.claimUID = some devs) :
    allocLoop committed (ca :: rest) avail acc
      = allocLoop committed rest avail (minsert acc ca.claimUID (devicesOf devs)) := by
  simp [allocLoop, h]

theorem allocLoop_cons_new (committed : AllocMap) (ca : ClaimAllocation)
    (rest : List ClaimAllocation) (avail : List String)
    (acc : List (String × List String))
    (h : mfind committed ca.claimUID = none) :
    allocLoop committed (ca :: rest) avail acc
      = allocLoop committed rest (avail.drop ca.count.toNat)
          (minsert acc ca.claimUID (avail.take ca.count.toNat)) := by
  simp [allocLoop, h]

theorem allocLoop_mfind_committed (committed : AllocMap) (uid : String)
    (devs : AllocatedDevices) (hcomm : mfind committed uid = some devs)
    (cas : List ClaimAllocation) :
    ∀ (avail : List String) (acc : List (String × List String)),
      ((∃ ca ∈ cas, ca.claimUID = uid) ∨ mfind acc uid = some (devicesOf devs)) →
      mfind (allocLoop committed cas avail acc) uid = some (devicesOf devs) := by
  induction cas with
  | nil =>
    intro avail acc h
    rcases h with ⟨ca, hmem, _⟩ | h
    · simp at hmem
    · simpa [allocLoop] using h
  | cons ca rest ih =>
    intro avail acc h
    by_cases hu : ca.claimUID = uid
    · have hcomm' : mfind committed ca.claimUID = some devs := by rw [hu]; exact hcomm
      rw [allocLoop_cons_committed committed ca rest avail acc devs hcomm']
      refine ih avail _ (Or.inr ?_)
      rw [hu]
      exact mfind_minsert_self ..
    · rcases h with ⟨ca', hmem, huid⟩ | hacc
      · rcases List.mem_cons.mp hmem with rfl | hmem'
        · exact absurd huid hu
        · cases hc : mfind committed ca.claimUID with
          | some d =>
            rw [allocLoop_cons_committed committed ca rest avail acc d hc]
            exact ih avail _ (Or.inl ⟨ca', hmem', huid⟩)
          | none =>
            rw [allocLoop_cons_new committed ca rest avail acc hc]
            exact ih _ _ (Or.inl ⟨ca', hmem', huid⟩)
      · cases hc : mfind committed ca.claimUID with
        | some d =>
          rw [allocLoop_cons_committed committed ca rest avail acc d hc]
          refine ih avail _ (Or.inr ?_)
          rw [mfind_minsert_ne _ _ _ _ hu]
          exact hacc
        | none =>
          rw [allocLoop_cons_new committed ca rest avail acc hc]
          refine ih _ _ (Or.inr ?_)
          rw [mfind_minsert_ne _ _ _ _ hu]
          exact hacc

theorem mem_committedUUIDs_of_mfind (m : AllocMap) (uid : String)
    (devs : AllocatedDevices) (h : mfind m uid = some devs) :
    ∀ u ∈ devicesOf devs, u ∈ committedUUIDs m := by
  intro u hu
  have hmem : (uid, devs) ∈ m := mem_of_mfind m uid devs h
  simp only [committedUUIDs, List.mem_flatten]
  exact ⟨devicesOf devs, List.mem_map.mpr ⟨(uid, devs), hmem, rfl⟩, hu⟩

theorem committed_not_in_freePool (s : NodeAllocationStateSpec) (uid : String)
    (devs : AllocatedDevices) (h : mfind s.allocatedClaims uid = some devs) :
    ∀ u ∈ devicesOf devs, u ∉ freePool s := by
  intro u hu hpool
  have := mem_committedUUIDs_of_mfind s.allocatedClaims uid devs h u hu
  simp only [freePool, List.mem_filter, decide_eq_true_eq] at hpool
  exact hpool.2 this

theorem allocLoop_new_subset_pool (committed : AllocMap) (pool0 : List String)
    (cas : List ClaimAllocation) :
    ∀ (avail : List String) (acc : List (String × List String)),
      avail ⊆ pool0 →
      (∀ uid out, mfind committed uid = none → mfind acc uid = some out →
        ∀ u ∈ out, u ∈ pool0) →
      ∀ uid out, mfind committed uid = none →
        mfind (allocLoop committed cas avail acc) uid = some out →
        ∀ u ∈ out, u ∈ pool0 := by
  induction cas with
  | nil =>
    intro avail acc _ hacc uid out hnone hfind
    exact hacc uid out hnone (by simpa [allocLoop] using hfind)
  | cons ca rest ih =>
    intro avail acc hav hacc uid out hnone hfind
    cases hc : mfind committed ca.claimUID with
    | some d =>
      rw [allocLoop_cons_committed committed ca rest avail acc d hc] at hfind
      refine ih avail _ hav ?_ uid out hnone hfind
      intro uid' out' hnone' hfind'
      by_cases he : ca.claimUID = uid'
      · rw [he] at hc
        rw [hc] at hnone'
        cases hnone'
      · rw [mfind_minsert_ne _ _ _ _ he] at hfind'
        exact hacc uid' out' hnone' hfind'
    | none =>
      rw [allocLoop_cons_new committed ca rest avail acc hc] at hfind
      refine ih _ _ (fun u hu => hav (List.drop_subset _ _ hu)) ?_ uid out hnone hfind
      intro uid' out' hnone' hfind'
      by_cases he : ca.claimUID = uid'
      · rw [he] at hfind'
        rw [mfind_minsert_self] at hfind'
        cases hfind'
        exact fun u hu => hav (List.take_subset _ _ hu)
      · rw [mfind_minsert_ne _ _ _ _ he] at hfind'
        exact hacc uid' out' hnone' hfind'

/-! ## Claim theorems: allocator and validation -/

/-- C9: `ValidateClaimParameters` returns an error exactly when the
requested device count is below 1; for every count ≥ 1 it succeeds. -/
theorem validateClaimParameters_error_iff (p : GpuClaimParametersSpec) :
    ((ValidateClaimParameters p).isSome ↔ p.count < 1)
    ∧ (1 ≤ p.count → ValidateClaimParameters p = none) := by
  constructor
  · unfold ValidateClaimParameters
    by_cases h : p.count < 1 <;> simp [h]
  · intro h
    unfold ValidateClaimParameters
    simp [not_lt.mpr h]

/-- Witness for C9 at counts 0 (error) and 2 (success). -/
theorem validateClaimParameters_error_iff_witness :
    (ValidateClaimParameters ⟨0⟩).isSome ∧ ValidateClaimParameters ⟨2⟩ = none :=
  ⟨(validateClaimParameters_error_iff ⟨0⟩).1.mpr (by decide),
    (validateClaimParameters_error_iff ⟨2⟩).2 (by decide)⟩

/-- C7: for a claim of the batch with a committed assignment in the node
record, the allocator's output is exactly that committed assignment
(content and order); none of its devices is in the free pool, and every
device handed to a claim without a committed assignment is drawn from the
free pool (which excludes all committed devices). -/
theorem gpuAllocate_committed_idempotent (s : NodeAllocationStateSpec)
    (gpucas : List ClaimAllocation) (ca : ClaimAllocation) (hca : ca ∈ gpucas)
    (devs : AllocatedDevices)
    (hcomm : mfind s.allocatedClaims ca.claimUID = some devs) :
    mfind (gpuAllocate s gpucas) ca.claimUID = some (devicesOf devs)
    ∧ (∀ u ∈ devicesOf devs, u ∉ freePool s)
    ∧ (∀ uid out, mfind s.allocatedClaims uid = none →
        mfind (gpuAllocate s gpucas) uid = some out → ∀ u ∈ out, u ∈ freePool s) := by
  refine ⟨?_, committed_not_in_freePool s ca.claimUID devs hcomm, ?_⟩
  · exact allocLoop_mfind_committed s.allocatedClaims ca.claimUID devs hcomm gpucas
      (freePool s) [] (Or.inl ⟨ca, hca, rfl⟩)
  · intro uid out hnone hfind
    exact allocLoop_new_subset_pool s.allocatedClaims (freePool s) gpucas
      (freePool s) [] (fun u hu => hu) (by intro uid' out' _ hf; cases hf)
      uid out hnone hfind

/-- Witness for C7 at a concrete record and batch: claim c0 committed to
device B, inventory A and B, batch asks c0 then c1. -/
theorem gpuAllocate_committed_idempotent_witness :
    mfind (gpuAllocate ⟨[.gpu ⟨"A"⟩, .gpu ⟨"B"⟩], [("c0", ⟨⟨[⟨"B"⟩]⟩⟩)]⟩
        [⟨"c0", 1, []⟩, ⟨"c1", 1, []⟩]) "c0"
      = some (devicesOf ⟨⟨[⟨"B"⟩]⟩⟩)
    ∧ (∀ u ∈ devicesOf (⟨⟨[⟨"B"⟩]⟩⟩ : AllocatedDevices),
        u ∉ freePool ⟨[.gpu ⟨"A"⟩, .gpu ⟨"B"⟩], [("c0", ⟨⟨[⟨"B"⟩]⟩⟩)]⟩)
    ∧ (∀ uid out,
        mfind (⟨[.gpu ⟨"A"⟩, .gpu ⟨"B"⟩],
          [("c0", ⟨⟨[⟨"B"⟩]⟩⟩)]⟩ : NodeAllocationStateSpec).allocatedClaims uid = none →
        mfind (gpuAllocate ⟨[.gpu ⟨"A"⟩, .gpu ⟨"B"⟩], [("c0", ⟨⟨[⟨"B"⟩]⟩⟩)]⟩
          [⟨"c0", 1, []⟩, ⟨"c1", 1, []⟩]) uid = some out →
        ∀ u ∈ out, u ∈ freePool ⟨[.gpu ⟨"A"⟩, .gpu ⟨"B"⟩], [("c0", ⟨⟨[⟨"B"⟩]⟩⟩)]⟩) :=
  gpuAllocate_committed_idempotent _ _ ⟨"c0", 1, []⟩ (by decide) ⟨⟨[⟨"B"⟩]⟩⟩ (by decide)

/-! ## Staging cache

Modelled from the spec: the `PerNodeAllocatedClaims` implementation file
is not among the provided sources.  Per §3/§4.2 the cache keeps at most
one live entry per claim — the candidate node and assignment currently
proposed — with `set` superseding any prior entry for the claim
regardless of node, `remove` clearing the claim's entry on whatever node
it named, and `visit` enumerating the entries staged on one node. -/

/-- The staging cache: claim UID → (candidate node, staged assignment). -/
abbrev StagingCache := List (String × String × AllocatedDevices)

/-- Embeds `PerNodeAllocatedClaims.Exists(claimUID, node)`. -/
def stagingExists (cache : StagingCache) (claimUID node : String) : Bool :=
  match mfind cache claimUID with
  | some (n, _) => n == node
  | none => false

/-- Embeds `PerNodeAllocatedClaims.Get(claimUID, ...)`: the claim's live entry. -/
def stagingGet (cache : StagingCache) (claimUID : String) :
    Option (String × AllocatedDevices) :=
  mfind cache claimUID

/-- Embeds `PerNodeAllocatedClaims.Set(claimUID, node, devices)`. -/
def stagingSet (cache : StagingCache) (claimUID node : String)
    (devices : AllocatedDevices) : StagingCache :=
  minsert cache claimUID (node, devices)

/-- Embeds `PerNodeAllocatedClaims.Remove(claimUID)`. -/
def stagingRemove (cache : StagingCache) (claimUID : String) : StagingCache :=
  merase cache claimUID

/-- The entries `PerNodeAllocatedClaims.VisitNode(node, fn)` presents. -/
def stagingOnNode (cache : StagingCache) (node : String) :
    List (String × AllocatedDevices) :=
  cache.filterMap (fun p => if p.2.1 == node then some (p.1, p.2.2) else none)

/-! ## Commit and Release (`driver.allocate`, `driver.Deallocate`)

The durable store is a map node name → record; `client.Get` is a lookup
in it, and the outcome of `client.Update` is the explicit `writeOk`
parameter (on `true` the store is replaced, on `false` it is untouched
and the error propagates). -/

/-- The durable store: node name → NodeAllocationState record. -/
abbrev Store := List (String × NodeAllocationState)

/-- The error taxonomy of the engine's commit/release paths. -/
inductive EngineError where
  | noNodeSelected
  | storeError
  | notReady (status : String)
  | noAllocationsGenerated (claimUID node : String)
  | updateError
  deriving DecidableEq, Repr

/-- Embeds `corev1.NodeSelectorRequirement` (the fields the engine sets). -/
structure NodeSelectorRequirement where
  key : String
  op : String
  values : List String
  deriving DecidableEq, Repr

/-- Embeds `corev1.NodeSelectorTerm` (`MatchFields` only). -/
structure NodeSelectorTerm where
  matchFields : List NodeSelectorRequirement
  deriving DecidableEq, Repr

/-- Embeds `corev1.NodeSelector`. -/
structure NodeSelector where
  nodeSelectorTerms : List NodeSelectorTerm
  deriving DecidableEq, Repr

/-- Embeds `resourcev1.AllocationResult` (the fields the engine sets). -/
structure AllocationResult where
  availableOnNodes : NodeSelector
  shareable : Bool
  deriving DecidableEq, Repr

/-- Embeds `buildAllocationResult`. -/
def buildAllocationResult (selectedNode : String) (shareable : Bool) :
    AllocationResult :=
  { availableOnNodes := ⟨[⟨[⟨"metadata.name", "In", [selectedNode]⟩]⟩]⟩,
    shareable := shareable }

/-- Outcome of `driver.allocate`: a result or an error. -/
inductive AllocateResult where
  | ok (res : AllocationResult)
  | err (e : EngineError)
  deriving DecidableEq, Repr

/-- Full outcome of one Commit call: returned value plus the durable
store and staging cache afterwards. -/
structure CommitOut where
  result : AllocateResult
  store : Store
  cache : StagingCache
  deriving DecidableEq, Repr

/-- Embeds `driver.allocate` (Commit): reject a missing node selection, fetch
the record, require `Ready`, return early on an already-committed claim,
require a staging entry for `(claim, node)` (`gpudriver.Allocate`), write
the updated record, and clear the staging entry only after a successful
write. -/
def driverAllocate (store : Store) (cache : StagingCache)
    (claimUID selectedNode : String) (writeOk : Bool) : CommitOut :=
  if selectedNode == "" then
    ⟨.err .noNodeSelected, store, cache⟩
  else
    match mfind store selectedNode with
    | none => ⟨.err .storeError, store, cache⟩
    | some crd =>
      if crd.status != NodeAllocationStateStatusReady then
        ⟨.err (.notReady crd.status), store, cache⟩
      else if (mfind crd.spec.allocatedClaims claimUID).isSome then
        ⟨.ok (buildAllocationResult selectedNode true), store, cache⟩
      else
        match stagingGet cache claimUID with
        | some (n, devs) =>
          if n == selectedNode then
            if writeOk then
              ⟨.ok (buildAllocationResult selectedNode true),
                minsert store selectedNode
                  ⟨crd.name, crd.status,
                    ⟨crd.spec.allocatableDevices,
                      minsert crd.spec.allocatedClaims claimUID devs⟩⟩,
                stagingRemove cache claimUID⟩
            else
              ⟨.err .updateError, store, cache⟩
          else
            ⟨.err (.noAllocationsGenerated claimUID selectedNode), store, cache⟩
        | none => ⟨.err (.noAllocationsGenerated claimUID selectedNode), store, cache⟩

/-- Outcome of `driver.Deallocate`: success or an error. -/
inductive ReleaseResult where
  | ok
  | err (e : EngineError)
  deriving DecidableEq, Repr

/-- Full outcome of one Release call. -/
structure ReleaseOut where
  result : ReleaseResult
  store : Store
  cache : StagingCache
  deriving DecidableEq, Repr

/-- Embeds `driver.Deallocate` (Release).  `selectedNode` is the value of
`getSelectedNode(claim)` (empty when the claim records no allocation).
The staging entry is removed by `gpudriver.Deallocate` before the durable
write, and only on the path where the claim is present in the committed
map. -/
def driverDeallocate (store : Store) (cache : StagingCache)
    (claimUID selectedNode : String) (writeOk : Bool) : ReleaseOut :=
  if selectedNode == "" then
    ⟨.ok, store, cache⟩
  else
    match mfind store selectedNode with
    | none => ⟨.err .storeError, store, cache⟩
    | some crd =>
      match mfind crd.spec.allocatedClaims claimUID with
      | none => ⟨.ok, store, cache⟩
      | some _ =>
        if writeOk then
          ⟨.ok,
            minsert store selectedNode
              ⟨crd.name, crd.status,
                ⟨crd.spec.allocatableDevices,
                  merase crd.spec.allocatedClaims claimUID⟩⟩,
            stagingRemove cache claimUID⟩
        else
          ⟨.err .updateError, store, stagingRemove cache claimUID⟩

example :
    driverAllocate [("n1", ⟨"n1", "Ready", ⟨[.gpu ⟨"A"⟩, .gpu ⟨"B"⟩], []⟩⟩)]
        [("c1", ("n1", ⟨⟨[⟨"A"⟩]⟩⟩))] "c1" "n1" true
      = ⟨.ok (buildAllocationResult "n1" true),
          [("n1", ⟨"n1", "Ready",
            ⟨[.gpu ⟨"A"⟩, .gpu ⟨"B"⟩], [("c1", ⟨⟨[⟨"A"⟩]⟩⟩)]⟩⟩)],
          []⟩ := by decide

example :
    driverDeallocate [("n1", ⟨"n1", "Ready",
        ⟨[.gpu ⟨"A"⟩, .gpu ⟨"B"⟩], [("c1", ⟨⟨[⟨"A"⟩]⟩⟩)]⟩⟩)] [] "c1" "n1" true
      = ⟨.ok, [("n1", ⟨"n1", "Ready", ⟨[.gpu ⟨"A"⟩, .gpu ⟨"B"⟩], []⟩⟩)], []⟩ := by
  decide

/-! ## Commit path lemmas -/

theorem driverAllocate_noNode (store : Store) (cache : StagingCache)
    (claimUID : String) (w : Bool) :
    driverAllocate store cache claimUID "" w = ⟨.err .noNodeSelected, store, cache⟩ := by
  simp [driverAllocate]

theorem driverAllocate_fetchFail (store : Store) (cache : StagingCache)
    (claimUID node : String) (w : Bool) (hn : node ≠ "")
    (hfetch : mfind store node = none) :
    driverAllocate store cache claimUID node w = ⟨.err .storeError, store, cache⟩ := by
  simp [driverAllocate, hn, hfetch]

theorem driverAllocate_notReady (store : Store) (cache : StagingCache)
    (claimUID node : String) (w : Bool) (crd : NodeAllocationState)
    (hn : node ≠ "") (hfetch : mfind store node = some crd)
    (hready : crd.status ≠ NodeAllocationStateStatusReady) :
    driverAllocate store cache claimUID node w
      = ⟨.err (.notReady crd.status), store, cache⟩ := by
  simp [driverAllocate, hn, hfetch, hready]

theorem driverAllocate_committed (store : Store) (cache : StagingCache)
    (claimUID node : String) (w : Bool) (crd : NodeAllocationState)
    (hn : node ≠ "") (hfetch : mfind store node = some crd)
    (hready : crd.status = NodeAllocationStateStatusReady)
    (hcomm : (mfind crd.spec.allocatedClaims claimUID).isSome = true) :
    driverAllocate store cache claimUID node w
      = ⟨.ok (buildAllocationResult node true), store, cache⟩ := by
  simp [driverAllocate, hn, hfetch, hready, hcomm]

theorem driverAllocate_staged_ok (store : Store) (cache : StagingCache)
    (claimUID node : String) (crd : NodeAllocationState) (devs : AllocatedDevices)
    (hn : node ≠ "") (hfetch : mfind store node = some crd)
    (hready : crd.status = NodeAllocationStateStatusReady)
    (hnc : mfind crd.spec.allocatedClaims claimUID = none)
    (hstage : stagingGet cache claimUID = some (node, devs)) :
    driverAllocate store cache claimUID node true
      = ⟨.ok (buildAllocationResult node true),
          minsert store node
            ⟨crd.name, crd.status,
              ⟨crd.spec.allocatableDevices,
                minsert crd.spec.allocatedClaims claimUID devs⟩⟩,
          stagingRemove cache claimUID⟩ := by
  simp [driverAllocate, hn, hfetch, hready, hnc, hstage]

theorem driverAllocate_staged_fail (store : Store) (cache : StagingCache)
    (claimUID node : String) (crd : NodeAllocationState) (devs : AllocatedDevices)
    (hn : node ≠ "") (hfetch : mfind store node = some crd)
    (hready : crd.status = NodeAllocationStateStatusReady)
    (hnc : mfind crd.spec.allocatedClaims claimUID = none)
    (hstage : stagingGet cache claimUID = some (node, devs)) :
    driverAllocate store cache claimUID node false
      = ⟨.err .updateError, store, cache⟩ := by
  simp [driverAllocate, hn, hfetch, hready, hnc, hstage]

theorem driverAllocate_noStaging (store : Store) (cache : StagingCache)
    (claimUID node : String) (w : Bool) (crd : NodeAllocationState)
    (hn : node ≠ "") (hfetch : mfind store node = some crd)
    (hready : crd.status = NodeAllocationStateStatusReady)
    (hnc : mfind crd.spec.allocatedClaims claimUID = none)
    (hstage : stagingExists cache claimUID node = false) :
    driverAllocate store cache claimUID node w
      = ⟨.err (.noAllocationsGenerated claimUID node), store, cache⟩ := by
  cases hget : stagingGet cache claimUID with
  | none => simp [driverAllocate, hn, hfetch, hready, hnc, hget]
  | some p =>
    obtain ⟨n, devs⟩ := p
    have hne : (n == node) = false := by
      unfold stagingExists at hstage
      rw [show mfind cache claimUID = some (n, devs) from hget] at hstage
      exact hstage
    simp [driverAllocate, hn, hfetch, hready, hnc, hget, hne]

/-- A successful Commit implies: the returned result is the built
allocation result for the node, a node was selected, and afterwards the
store holds a Ready record with the claim in its committed map. -/
theorem driverAllocate_ok_inv (store : Store) (cache : StagingCache)
    (claimUID node : String) (w : Bool) (r : AllocationResult)
    (h : (driverAllocate store cache claimUID node w).result = .ok r) :
    r = buildAllocationResult node true ∧ node ≠ ""
    ∧ ∃ crd', mfind (driverAllocate store cache claimUID node w).store node = some crd'
        ∧ crd'.status = NodeAllocationStateStatusReady
        ∧ (mfind crd'.spec.allocatedClaims claimUID).isSome = true := by
  by_cases hn : node = ""
  · rw [hn, driverAllocate_noNode] at h
    simp at h
  · cases hfetch : mfind store node with
    | none =>
      rw [driverAllocate_fetchFail store cache claimUID node w hn hfetch] at h
      simp at h
    | some crd =>
      by_cases hready : crd.status = NodeAllocationStateStatusReady
      · cases hnc : mfind crd.spec.allocatedClaims claimUID with
        | some d =>
          rw [driverAllocate_committed store cache claimUID node w crd hn hfetch hready
            (by simp [hnc])] at h ⊢
          simp only [CommitOut.result] at h
          cases h
          exact ⟨rfl, hn, crd, hfetch, hready, by simp [hnc]⟩
        | none =>
          cases hget : stagingGet cache claimUID with
          | none =>
            have hse : stagingExists cache claimUID node = false := by
              unfold stagingExists
              rw [show mfind cache claimUID = none from hget]
            rw [driverAllocate_noStaging store cache claimUID node w crd hn hfetch hready
              hnc hse] at h
            simp at h
          | some p =>
            obtain ⟨n, devs⟩ := p
            by_cases hnn : n = node
            · subst hnn
              cases w with
              | false =>
                rw [driverAllocate_staged_fail store cache claimUID n crd devs hn hfetch
                  hready hnc hget] at h
                simp at h
              | true =>
                rw [driverAllocate_staged_ok store cache claimUID n crd devs hn hfetch
                  hready hnc hget] at h ⊢
                simp only [CommitOut.result] at h
                cases h
                refine ⟨rfl, hn,
                  ⟨crd.name, crd.status,
                    ⟨crd.spec.allocatableDevices,
                      minsert crd.spec.allocatedClaims claimUID devs⟩⟩,
                  ?_, hready, ?_⟩
                · exact mfind_minsert_self ..
                · rw [mfind_minsert_self]
                  rfl
            · have hse : stagingExists cache claimUID node = false := by
                unfold stagingExists
                rw [show mfind cache claimUID = some (n, devs) from hget]
                simp [hnn]
              rw [driverAllocate_noStaging store cache claimUID node w crd hn hfetch hready
                hnc hse] at h
              simp at h
      · rw [driverAllocate_notReady store cache claimUID node w crd hn hfetch hready] at h
        simp at h

/-! ## Claim theorems: Commit and Release -/

/-- C4: after a successful Commit for `(claim, node)`, calling Commit
again for the same pair performs zero writes — the durable store and the
staging cache come back unchanged, whatever the second call's write
outcome would have been — and returns the same successful allocation
result as the first call. -/
theorem commit_idempotent_repeat (store : Store) (cache : StagingCache)
    (claimUID node : String) (w1 w2 : Bool) (r : AllocationResult)
    (h : (driverAllocate store cache claimUID node w1).result = .ok r) :
    driverAllocate (driverAllocate store cache claimUID node w1).store
        (driverAllocate store cache claimUID node w1).cache claimUID node w2
      = ⟨.ok r, (driverAllocate store cache claimUID node w1).store,
          (driverAllocate store cache claimUID node w1).cache⟩ := by
  obtain ⟨hr, hn, crd', hfetch', hready', hcomm'⟩ :=
    driverAllocate_ok_inv store cache claimUID node w1 r h
  rw [driverAllocate_committed _ _ claimUID node w2 crd' hn hfetch' hready' hcomm', hr]

/-- Witness for C4: a first Commit that succeeds through the staged
path, repeated with the write outcome flipped to failure — the repeat
still succeeds with the same result and changes nothing. -/
theorem commit_idempotent_repeat_witness :
    driverAllocate
        (driverAllocate [("n1", ⟨"n1", "Ready", ⟨[.gpu ⟨"A"⟩], []⟩⟩)]
          [("c1", ("n1", ⟨⟨[⟨"A"⟩]⟩⟩))] "c1" "n1" true).store
        (driverAllocate [("n1", ⟨"n1", "Ready", ⟨[.gpu ⟨"A"⟩], []⟩⟩)]
          [("c1", ("n1", ⟨⟨[⟨"A"⟩]⟩⟩))] "c1" "n1" true).cache "c1" "n1" false
      = ⟨.ok (buildAllocationResult "n1" true),
          (driverAllocate [("n1", ⟨"n1", "Ready", ⟨[.gpu ⟨"A"⟩], []⟩⟩)]
            [("c1", ("n1", ⟨⟨[⟨"A"⟩]⟩⟩))] "c1" "n1" true).store,
          (driverAllocate [("n1", ⟨"n1", "Ready", ⟨[.gpu ⟨"A"⟩], []⟩⟩)]
            [("c1", ("n1", ⟨⟨[⟨"A"⟩]⟩⟩))] "c1" "n1" true).cache⟩ :=
  commit_idempotent_repeat _ _ "c1" "n1" true false _ (by decide)

/-- C5: with no prior commitment for the claim and no staging entry for
`(claim, node)`, Commit fails with the "no allocations generated" error
and leaves the durable store and the cache unchanged. -/
theorem commit_missing_staging_error (store : Store) (cache : StagingCache)
    (claimUID node : String) (w : Bool) (crd : NodeAllocationState)
    (hn : node ≠ "") (hfetch : mfind store node = some crd)
    (hready : crd.status = NodeAllocationStateStatusReady)
    (hnc : mfind crd.spec.allocatedClaims claimUID = none)
    (hstage : stagingExists cache claimUID node = false) :
    driverAllocate store cache claimUID node w
      = ⟨.err (.noAllocationsGenerated claimUID node), store, cache⟩ :=
  driverAllocate_noStaging store cache claimUID node w crd hn hfetch hready hnc hstage

/-- Witness for C5: empty staging cache, Ready record without the claim. -/
theorem commit_missing_staging_error_witness :
    driverAllocate [("n1", ⟨"n1", "Ready", ⟨[.gpu ⟨"A"⟩], []⟩⟩)] [] "c1" "n1" true
      = ⟨.err (.noAllocationsGenerated "c1" "n1"),
          [("n1", ⟨"n1", "Ready", ⟨[.gpu ⟨"A"⟩], []⟩⟩)], []⟩ :=
  commit_missing_staging_error _ _ "c1" "n1" true ⟨"n1", "Ready", ⟨[.gpu ⟨"A"⟩], []⟩⟩
    (by decide) (by decide) rfl rfl rfl

/-- C8: on the staged Commit path, a successful durable write removes
the claim's staging entry, while a failed write leaves the staging cache
intact and propagates the update error. -/
theorem commit_staging_on_write_outcome (store : Store) (cache : StagingCache)
    (claimUID node : String) (crd : NodeAllocationState) (devs : AllocatedDevices)
    (hn : node ≠ "") (hfetch : mfind store node = some crd)
    (hready : crd.status = NodeAllocationStateStatusReady)
    (hnc : mfind crd.spec.allocatedClaims claimUID = none)
    (hstage : stagingGet cache claimUID = some (node, devs)) :
    ((driverAllocate store cache claimUID node true).cache
        = stagingRemove cache claimUID
      ∧ mfind (driverAllocate store cache claimUID node true).cache claimUID = none)
    ∧ ((driverAllocate store cache claimUID node false).cache = cache
      ∧ (driverAllocate store cache claimUID node false).result
          = .err .updateError) := by
  rw [driverAllocate_staged_ok store cache claimUID node crd devs hn hfetch hready hnc
    hstage, driverAllocate_staged_fail store cache claimUID node crd devs hn hfetch
    hready hnc hstage]
  exact ⟨⟨rfl, mfind_merase_self ..⟩, rfl, rfl⟩

/-- Witness for C8 on a one-device record with claim c1 staged on n1. -/
theorem commit_staging_on_write_outcome_witness :
    ((driverAllocate [("n1", ⟨"n1", "Ready", ⟨[.gpu ⟨"A"⟩], []⟩⟩)]
          [("c1", ("n1", ⟨⟨[⟨"A"⟩]⟩⟩))] "c1" "n1" true).cache
        = stagingRemove [("c1", ("n1", ⟨⟨[⟨"A"⟩]⟩⟩))] "c1"
      ∧ mfind (driverAllocate [("n1", ⟨"n1", "Ready", ⟨[.gpu ⟨"A"⟩], []⟩⟩)]
          [("c1", ("n1", ⟨⟨[⟨"A"⟩]⟩⟩))] "c1" "n1" true).cache "c1" = none)
    ∧ ((driverAllocate [("n1", ⟨"n1", "Ready", ⟨[.gpu ⟨"A"⟩], []⟩⟩)]
          [("c1", ("n1", ⟨⟨[⟨"A"⟩]⟩⟩))] "c1" "n1" false).cache
        = [("c1", ("n1", ⟨⟨[⟨"A"⟩]⟩⟩))]
      ∧ (driverAllocate [("n1", ⟨"n1", "Ready", ⟨[.gpu ⟨"A"⟩], []⟩⟩)]
          [("c1", ("n1", ⟨⟨[⟨"A"⟩]⟩⟩))] "c1" "n1" false).result
          = .err .updateError) :=
  commit_staging_on_write_outcome _ _ "c1" "n1" ⟨"n1", "Ready", ⟨[.gpu ⟨"A"⟩], []⟩⟩
    ⟨⟨[⟨"A"⟩]⟩⟩ (by decide) (by decide) rfl rfl rfl

/-- C10: every successful Commit returns a shareable allocation whose
node selector matches exactly the single selected node by name. -/
theorem commit_result_shareable_selector (store : Store) (cache : StagingCache)
    (claimUID node : String) (w : Bool) (r : AllocationResult)
    (h : (driverAllocate store cache claimUID node w).result = .ok r) :
    r.shareable = true
    ∧ r.availableOnNodes = ⟨[⟨[⟨"metadata.name", "In", [node]⟩]⟩]⟩ := by
  obtain ⟨hr, -⟩ := driverAllocate_ok_inv store cache claimUID node w r h
  subst hr
  exact ⟨rfl, rfl⟩

/-- Witness for C10 at a Commit taking the idempotent-repeat path. -/
theorem commit_result_shareable_selector_witness :
    (buildAllocationResult "n1" true).shareable = true
    ∧ (buildAllocationResult "n1" true).availableOnNodes
        = ⟨[⟨[⟨"metadata.name", "In", ["n1"]⟩]⟩]⟩ :=
  commit_result_shareable_selector
    [("n1", ⟨"n1", "Ready", ⟨[.gpu ⟨"A"⟩], [("c1", ⟨⟨[⟨"A"⟩]⟩⟩)]⟩⟩)] [] "c1" "n1"
    true _ (by decide)

/-- C3 counterexample: Release succeeds on its no-node-selected path
while the staging cache still holds the claim's entry, so the cache is
not cleared unconditionally on success. -/
theorem release_staging_survives_counterexample :
    (driverDeallocate [] [("c1", ("n1", ⟨⟨[⟨"A"⟩]⟩⟩))] "c1" "" true).result = .ok
    ∧ (driverDeallocate [] [("c1", ("n1", ⟨⟨[⟨"A"⟩]⟩⟩))] "c1" "" true).cache
        = [("c1", ("n1", ⟨⟨[⟨"A"⟩]⟩⟩))] := by decide

/-- C3 amended: Release clears the claim's staging entry — whatever node
that entry names — exactly on the path where a node was selected and the
claim is present in the committed map; on the no-op success paths (no
node selected, or claim absent from the committed map) it returns
success without touching the staging cache. -/
theorem release_staging_discipline (store : Store) (cache : StagingCache)
    (claimUID node : String) (w : Bool) :
    (node = "" → driverDeallocate store cache claimUID node w = ⟨.ok, store, cache⟩)
    ∧ (∀ crd, node ≠ "" → mfind store node = some crd →
        mfind crd.spec.allocatedClaims claimUID = none →
        driverDeallocate store cache claimUID node w = ⟨.ok, store, cache⟩)
    ∧ (∀ crd d, node ≠ "" → mfind store node = some crd →
        mfind crd.spec.allocatedClaims claimUID = some d →
        mfind (driverDeallocate store cache claimUID node w).cache claimUID = none) := by
  refine ⟨fun hn => by simp [driverDeallocate, hn], ?_, ?_⟩
  · intro crd hn hfetch hnc
    simp [driverDeallocate, hn, hfetch, hnc]
  · intro crd d hn hfetch hc
    have hcache : (driverDeallocate store cache claimUID node w).cache
        = stagingRemove cache claimUID := by
      cases w with
      | true => simp [driverDeallocate, hn, hfetch, hc]
      | false => simp [driverDeallocate, hn, hfetch, hc]
    rw [hcache]
    exact mfind_merase_self ..

/-- Witness for the amended C3: the claim is committed on n1 but staged
on n2; Release still clears the staging entry. -/
theorem release_staging_discipline_witness :
    mfind (driverDeallocate
        [("n1", ⟨"n1", "Ready", ⟨[.gpu ⟨"A"⟩], [("c1", ⟨⟨[⟨"A"⟩]⟩⟩)]⟩⟩)]
        [("c1", ("n2", ⟨⟨[⟨"A"⟩]⟩⟩))] "c1" "n1" true).cache "c1" = none :=
  (release_staging_discipline
      [("n1", ⟨"n1", "Ready", ⟨[.gpu ⟨"A"⟩], [("c1", ⟨⟨[⟨"A"⟩]⟩⟩)]⟩⟩)]
      [("c1", ("n2", ⟨⟨[⟨"A"⟩]⟩⟩))] "c1" "n1" true).2.2
    ⟨"n1", "Ready", ⟨[.gpu ⟨"A"⟩], [("c1", ⟨⟨[⟨"A"⟩]⟩⟩)]⟩⟩ ⟨⟨[⟨"A"⟩]⟩⟩
    (by decide) (by decide) (by decide)

/-! ## Evaluate (`driver.unsuitableNode`, `gpudriver.UnsuitableNode`) -/

/-- Appending the node to the unsuitable-nodes list of every claim of the
batch (`for _, ca := range allcas { ca.UnsuitableNodes = append(...) }`). -/
def markAllUnsuitable (allcas : List ClaimAllocation) (node : String) :
    List ClaimAllocation :=
  allcas.map fun c => ⟨c.claimUID, c.count, c.unsuitableNodes ++ [node]⟩

/-- One step of the reconcile visit in `gpudriver.UnsuitableNode`: a
staged claim that is already durably committed is dropped from the
cache; otherwise its staged assignment is folded into the working
record's committed map. -/
def reconcileStep (acc : NodeAllocationStateSpec × StagingCache)
    (entry : String × AllocatedDevices) : NodeAllocationStateSpec × StagingCache :=
  if (mfind acc.1.allocatedClaims entry.1).isSome then
    (acc.1, stagingRemove acc.2 entry.1)
  else
    (⟨acc.1.allocatableDevices, minsert acc.1.allocatedClaims entry.1 entry.2⟩, acc.2)

/-- The reconcile loop (`VisitNode(potentialNode, fn)` over the entries
staged on the node). -/
def reconcile (s : NodeAllocationStateSpec) (node : String) (cache : StagingCache) :
    NodeAllocationStateSpec × StagingCache :=
  (stagingOnNode cache node).foldl reconcileStep (s, cache)

/-- The check-and-stage loop of `gpudriver.UnsuitableNode`: claims are
processed in batch order; at the first claim whose assignment length
differs from its requested count, the node is appended to every claim's
unsuitable list and the loop returns — staging entries already made for
earlier, satisfied claims of the same pass stay in the cache. -/
def stageClaims (allocated : List (String × List String)) (node : String)
    (allcas : List ClaimAllocation) :
    List ClaimAllocation → StagingCache → List ClaimAllocation × StagingCache
  | [], cache => (allcas, cache)
  | ca :: rest, cache =>
    if ca.count ≠ ((allocatedFor allocated ca.claimUID).length : Int) then
      (markAllUnsuitable allcas node, cache)
    else
      stageClaims allocated node allcas rest
        (stagingSet cache ca.claimUID node
          ⟨⟨(allocatedFor allocated ca.claimUID).map AllocatedGpu.mk⟩⟩)

/-- The working state and outputs of one Evaluate call. -/
structure EvalOut where
  spec : NodeAllocationStateSpec
  allcas : List ClaimAllocation
  cache : StagingCache
  deriving DecidableEq, Repr

/-- Embeds `gpudriver.UnsuitableNode`: reconcile the staged entries into the
working record, run the allocator over the GPU claims, then
check-and-stage in batch order. -/
def gpuUnsuitableNode (s : NodeAllocationStateSpec)
    (gpucas allcas : List ClaimAllocation) (node : String)
    (cache : StagingCache) : EvalOut :=
  let rc := reconcile s node cache
  let st := stageClaims (gpuAllocate rc.1 gpucas) node allcas gpucas rc.2
  ⟨rc.1, st.1, st.2⟩

/-- The outcome of `driver.unsuitableNode`: the in-memory working record
(if one was built), the updated batch, and the staging cache. -/
structure EvaluateOut where
  working : Option NodeAllocationStateSpec
  allcas : List ClaimAllocation
  cache : StagingCache
  deriving DecidableEq, Repr

/-- Embeds `driver.unsuitableNode` (Evaluate for one candidate node).
`fetchResult` is the outcome of `client.Get` (`none` embeds not-found
and every other fetch error alike, as the source treats them alike).
The per-kind partition puts every claim in the GPU bucket, mirroring the
single-kind dispatch in the source, so the GPU batch is the full batch. -/
def driverUnsuitableNode (fetchResult : Option NodeAllocationState)
    (cache : StagingCache) (allcas : List ClaimAllocation) (node : String) :
    EvaluateOut :=
  match fetchResult with
  | none => ⟨none, markAllUnsuitable allcas node, cache⟩
  | some crd =>
    if crd.status ≠ NodeAllocationStateStatusReady then
      ⟨none, markAllUnsuitable allcas node, cache⟩
    else
      let out := gpuUnsuitableNode crd.spec allcas allcas node cache
      ⟨some out.spec, out.allcas, out.cache⟩

example :
    driverUnsuitableNode (some ⟨"n1", "Ready", ⟨[.gpu ⟨"A"⟩, .gpu ⟨"B"⟩], []⟩⟩)
        [] [⟨"c1", 1, []⟩] "n1"
      = ⟨some ⟨[.gpu ⟨"A"⟩, .gpu ⟨"B"⟩], []⟩, [⟨"c1", 1, []⟩],
          [("c1", ("n1", ⟨⟨[⟨"A"⟩]⟩⟩))]⟩ := by decide

example :
    driverUnsuitableNode (some ⟨"n1", "Ready", ⟨[.gpu ⟨"A"⟩, .gpu ⟨"B"⟩], []⟩⟩)
        [] [⟨"c2", 3, []⟩] "n1"
      = ⟨some ⟨[.gpu ⟨"A"⟩, .gpu ⟨"B"⟩], []⟩, [⟨"c2", 3, ["n1"]⟩], []⟩ := by decide

/-! ## Claim theorems: Evaluate -/

/-- C6: when the record fetch fails (for any reason) or the record is
not Ready, Evaluate appends the node to the unsuitable-nodes list of
every claim of the full batch, builds no working record (the allocator
is never reached), and leaves the staging cache untouched. -/
theorem evaluate_unready_marks_all (fetchResult : Option NodeAllocationState)
    (cache : StagingCache) (allcas : List ClaimAllocation) (node : String)
    (h : fetchResult = none
      ∨ ∃ crd, fetchResult = some crd
          ∧ crd.status ≠ NodeAllocationStateStatusReady) :
    driverUnsuitableNode fetchResult cache allcas node
      = ⟨none, markAllUnsuitable allcas node, cache⟩ := by
  rcases h with h | ⟨crd, hsome, hst⟩
  · rw [h]
    rfl
  · rw [hsome]
    simp [driverUnsuitableNode, hst]

/-- Witness for C6: a NotReady node record. -/
theorem evaluate_unready_marks_all_witness :
    driverUnsuitableNode (some ⟨"n1", "NotReady", ⟨[.gpu ⟨"A"⟩], []⟩⟩)
        [] [⟨"c1", 1, []⟩, ⟨"c2", 2, []⟩] "n1"
      = ⟨none, markAllUnsuitable [⟨"c1", 1, []⟩, ⟨"c2", 2, []⟩] "n1", []⟩ :=
  evaluate_unready_marks_all _ [] [⟨"c1", 1, []⟩, ⟨"c2", 2, []⟩] "n1"
    (Or.inr ⟨⟨"n1", "NotReady", ⟨[.gpu ⟨"A"⟩], []⟩⟩, rfl, by decide⟩)

/-- C2 counterexample: inventory holds only device A; the batch asks
one device for c1 and two for c2.  c2 is under-fulfilled (0 of 2), the
node is marked unsuitable for the batch — yet a brand-new staging entry
for the earlier, satisfied claim c1 has been created on that node. -/
theorem shortfall_staging_counterexample :
    ((2 : Int) ≠ ((allocatedFor
        (gpuAllocate ⟨[.gpu ⟨"A"⟩], []⟩ [⟨"c1", 1, []⟩, ⟨"c2", 2, []⟩])
        "c2").length : Int))
    ∧ (gpuUnsuitableNode ⟨[.gpu ⟨"A"⟩], []⟩
        [⟨"c1", 1, []⟩, ⟨"c2", 2, []⟩] [⟨"c1", 1, []⟩, ⟨"c2", 2, []⟩] "n1" []).cache
      = [("c1", ("n1", ⟨⟨[⟨"A"⟩]⟩⟩))] := by decide

theorem stageClaims_shortfall (allocated : List (String × List String))
    (node : String) (allcas : List ClaimAllocation) :
    ∀ (pre : List ClaimAllocation) (caS : ClaimAllocation)
      (post : List ClaimAllocation) (cache : StagingCache),
      (∀ ca ∈ pre, ca.count = ((allocatedFor allocated ca.claimUID).length : Int)) →
      caS.count ≠ ((allocatedFor allocated caS.claimUID).length : Int) →
      stageClaims allocated node allcas (pre ++ caS :: post) cache
        = (markAllUnsuitable allcas node,
           pre.foldl (fun c ca => stagingSet c ca.claimUID node
             ⟨⟨(allocatedFor allocated ca.claimUID).map AllocatedGpu.mk⟩⟩) cache) := by
  intro pre
  induction pre with
  | nil =>
    intro caS post cache _ hshort
    simp [stageClaims, hshort]
  | cons p pre' ih =>
    intro caS post cache hpre hshort
    have hp : ¬ p.count ≠ ((allocatedFor allocated p.claimUID).length : Int) := by
      simpa using hpre p (List.mem_cons_self ..)
    simp only [List.cons_append, stageClaims, hp, if_false, List.foldl_cons]
    exact ih caS post _ (fun ca hca => hpre ca (List.mem_cons_of_mem _ hca)) hshort

/-- C2 amended: if some claim of the batch is under-fulfilled on the
node, the node is appended to the unsuitable-nodes list of every claim
of the full batch and no staging entries are created for the first
under-fulfilled claim or for any claim after it — but the earlier,
fully satisfied claims of the batch have already been staged by the
time the shortfall is detected. -/
theorem evaluate_shortfall_marks_all_stages_front
    (s : NodeAllocationStateSpec) (gpucas allcas : List ClaimAllocation)
    (node : String) (cache : StagingCache)
    (pre post : List ClaimAllocation) (caS : ClaimAllocation)
    (hsplit : gpucas = pre ++ caS :: post)
    (hpre : ∀ ca ∈ pre, ca.count
      = ((allocatedFor (gpuAllocate (reconcile s node cache).1 gpucas)
          ca.claimUID).length : Int))
    (hshort : caS.count
      ≠ ((allocatedFor (gpuAllocate (reconcile s node cache).1 gpucas)
          caS.claimUID).length : Int)) :
    (gpuUnsuitableNode s gpucas allcas node cache).allcas
        = markAllUnsuitable allcas node
    ∧ (gpuUnsuitableNode s gpucas allcas node cache).cache
        = pre.foldl (fun c ca => stagingSet c ca.claimUID node
            ⟨⟨(allocatedFor (gpuAllocate (reconcile s node cache).1 gpucas)
                ca.claimUID).map AllocatedGpu.mk⟩⟩)
          (reconcile s node cache).2 := by
  have hst := stageClaims_shortfall (gpuAllocate (reconcile s node cache).1 gpucas)
    node allcas pre caS post (reconcile s node cache).2 hpre hshort
  rw [← hsplit] at hst
  simp [gpuUnsuitableNode, hst]

/-- Witness for the amended C2, at the counterexample's inputs. -/
theorem evaluate_shortfall_marks_all_stages_front_witness :
    (gpuUnsuitableNode ⟨[.gpu ⟨"A"⟩], []⟩
        [⟨"c1", 1, []⟩, ⟨"c2", 2, []⟩] [⟨"c1", 1, []⟩, ⟨"c2", 2, []⟩] "n1" []).allcas
      = markAllUnsuitable [⟨"c1", 1, []⟩, ⟨"c2", 2, []⟩] "n1"
    ∧ (gpuUnsuitableNode ⟨[.gpu ⟨"A"⟩], []⟩
        [⟨"c1", 1, []⟩, ⟨"c2", 2, []⟩] [⟨"c1", 1, []⟩, ⟨"c2", 2, []⟩] "n1" []).cache
      = ([⟨"c1", 1, []⟩] : List ClaimAllocation).foldl
        (fun (c : StagingCache) (ca : ClaimAllocation) => stagingSet c ca.claimUID "n1"
          ⟨⟨(allocatedFor (gpuAllocate
              (reconcile ⟨[.gpu ⟨"A"⟩], []⟩ "n1" []).1
              [⟨"c1", 1, []⟩, ⟨"c2", 2, []⟩]) ca.claimUID).map AllocatedGpu.mk⟩⟩)
        (reconcile ⟨[.gpu ⟨"A"⟩], []⟩ "n1" []).2 :=
  evaluate_shortfall_marks_all_stages_front ⟨[.gpu ⟨"A"⟩], []⟩
    [⟨"c1", 1, []⟩, ⟨"c2", 2, []⟩] [⟨"c1", 1, []⟩, ⟨"c2", 2, []⟩] "n1" []
    [⟨"c1", 1, []⟩] [] ⟨"c2", 2, []⟩ rfl (by decide) (by decide)

/-! ## The per-node record invariant (spec §8) -/

/-- The record invariant: the device-identity sets of all entries of
`allocatedClaims` are pairwise disjoint and each is inside the
inventory's identities. -/
def specInvariant (s : NodeAllocationStateSpec) : Prop :=
  s.allocatedClaims.Pairwise (fun a b => ∀ u ∈ devicesOf a.2, u ∉ devicesOf b.2)
  ∧ ∀ p ∈ s.allocatedClaims, ∀ u ∈ devicesOf p.2, u ∈ inventoryUUIDs s

instance (s : NodeAllocationStateSpec) : Decidable (specInvariant s) := by
  unfold specInvariant
  infer_instance

/-- The invariant over the whole durable store. -/
def storeInvariant (store : Store) : Prop :=
  ∀ node crd, mfind store node = some crd → specInvariant crd.spec

/-- Consistency of the entries staged on one node with a record: every
staged claim that is not yet committed names only inventory devices and
avoids every committed device, and the staged sets are pairwise
disjoint. -/
def stagingConsistent (cache : StagingCache) (node : String)
    (s : NodeAllocationStateSpec) : Prop :=
  (stagingOnNode cache node).Pairwise
    (fun a b => ∀ u ∈ devicesOf a.2, u ∉ devicesOf b.2)
  ∧ ∀ e ∈ stagingOnNode cache node, mfind s.allocatedClaims e.1 = none →
      (∀ u ∈ devicesOf e.2, u ∈ inventoryUUIDs s)
      ∧ (∀ p ∈ s.allocatedClaims, ∀ u ∈ devicesOf e.2, u ∉ devicesOf p.2)

instance (cache : StagingCache) (node : String) (s : NodeAllocationStateSpec) :
    Decidable (stagingConsistent cache node s) := by
  unfold stagingConsistent
  infer_instance

theorem minsert_of_mfind_none {α : Type} (m : List (String × α)) (k : String)
    (v : α) (h : mfind m k = none) : minsert m k v = m ++ [(k, v)] := by
  induction m with
  | nil => rfl
  | cons p rest ih =>
    rw [mfind_cons] at h
    by_cases hp : p.1 == k
    · simp [hp] at h
    · simp only [hp, if_false] at h
      simp [minsert, hp, ih h]

theorem specInvariant_insert (s : NodeAllocationStateSpec) (k : String)
    (d : AllocatedDevices) (hinv : specInvariant s)
    (hfresh : mfind s.allocatedClaims k = none)
    (hsub : ∀ u ∈ devicesOf d, u ∈ inventoryUUIDs s)
    (hdisj : ∀ p ∈ s.allocatedClaims, ∀ u ∈ devicesOf d, u ∉ devicesOf p.2) :
    specInvariant ⟨s.allocatableDevices, minsert s.allocatedClaims k d⟩ := by
  obtain ⟨hpw, hsubAll⟩ := hinv
  have happ : minsert s.allocatedClaims k d = s.allocatedClaims ++ [(k, d)] :=
    minsert_of_mfind_none s.allocatedClaims k d hfresh
  refine ⟨?_, ?_⟩
  · show (minsert s.allocatedClaims k d).Pairwise
      (fun a b => ∀ u ∈ devicesOf a.2, u ∉ devicesOf b.2)
    rw [happ, List.pairwise_append]
    refine ⟨hpw, List.pairwise_singleton _ _, ?_⟩
    intro a ha b hb
    have hb' : b = (k, d) := by simpa using hb
    subst hb'
    intro u hu hud
    exact hdisj a ha u hud hu
  · intro p hp u hu
    have hp2 : p ∈ s.allocatedClaims ++ [(k, d)] := by
      rw [← happ]
      exact hp
    rcases List.mem_append.mp hp2 with h | h
    · exact hsubAll p h u hu
    · have hp' : p = (k, d) := by simpa using h
      subst hp'
      exact hsub u hu

theorem specInvariant_erase (s : NodeAllocationStateSpec) (k : String)
    (h : specInvariant s) :
    specInvariant ⟨s.allocatableDevices, merase s.allocatedClaims k⟩ := by
  obtain ⟨hpw, hsub⟩ := h
  constructor
  · exact hpw.sublist (List.filter_sublist _)
  · intro p hp u hu
    exact hsub p (List.mem_of_mem_filter hp) u hu

theorem storeInvariant_minsert (store : Store) (node : String)
    (crd : NodeAllocationState) (h : storeInvariant store)
    (hc : specInvariant crd.spec) : storeInvariant (minsert store node crd) := by
  intro n c hfind
  by_cases hn : node = n
  · subst hn
    rw [mfind_minsert_self] at hfind
    cases hfind
    exact hc
  · rw [mfind_minsert_ne _ _ _ _ hn] at hfind
    exact h n c hfind

theorem stagingOnNode_mem (cache : StagingCache) (claimUID node : String)
    (devs : AllocatedDevices) (h : mfind cache claimUID = some (node, devs)) :
    (claimUID, devs) ∈ stagingOnNode cache node := by
  have hmem := mem_of_mfind cache claimUID (node, devs) h
  unfold stagingOnNode
  exact List.mem_filterMap.mpr ⟨(claimUID, (node, devs)), hmem, by simp⟩

/-- The reconcile fold preserves the record invariant, provided the
staged entries it folds in are pairwise disjoint and each not-yet-
committed one stays inside the inventory and away from every committed
device. -/
theorem reconcileFold_invariant :
    ∀ (entries : List (String × AllocatedDevices)) (s : NodeAllocationStateSpec)
      (cache : StagingCache),
      specInvariant s →
      entries.Pairwise (fun a b => ∀ u ∈ devicesOf a.2, u ∉ devicesOf b.2) →
      (∀ e ∈ entries, mfind s.allocatedClaims e.1 = none →
        (∀ u ∈ devicesOf e.2, u ∈ inventoryUUIDs s)
        ∧ (∀ p ∈ s.allocatedClaims, ∀ u ∈ devicesOf e.2, u ∉ devicesOf p.2)) →
      specInvariant (entries.foldl reconcileStep (s, cache)).1 := by
  intro entries
  induction entries with
  | nil =>
    intro s cache hinv _ _
    exact hinv
  | cons e rest ih =>
    intro s cache hinv hpw hyp
    rw [List.foldl_cons]
    cases hc : mfind s.allocatedClaims e.1 with
    | some d =>
      have hstep : reconcileStep (s, cache) e = (s, stagingRemove cache e.1) := by
        simp [reconcileStep, hc]
      rw [hstep]
      exact ih s _ hinv hpw.tail
        (fun e' he' h => hyp e' (List.mem_cons_of_mem _ he') h)
    | none =>
      have hstep : reconcileStep (s, cache) e
          = (⟨s.allocatableDevices, minsert s.allocatedClaims e.1 e.2⟩, cache) := by
        simp [reconcileStep, hc]
      rw [hstep]
      obtain ⟨hsub, hdisj⟩ := hyp e (List.mem_cons_self ..) hc
      refine ih _ _ (specInvariant_insert s e.1 e.2 hinv hc hsub hdisj)
        hpw.tail ?_
      intro e' he' hnone'
      have hnone2 : mfind (minsert s.allocatedClaims e.1 e.2) e'.1 = none := hnone'
      by_cases heq : e'.1 = e.1
      · rw [heq, mfind_minsert_self] at hnone2
        cases hnone2
      · rw [mfind_minsert_ne _ _ _ _ (fun h => heq h.symm)] at hnone2
        obtain ⟨hsub', hdisj'⟩ := hyp e' (List.mem_cons_of_mem _ he') hnone2
        refine ⟨hsub', ?_⟩
        intro p hp u hu
        have hp2 : p ∈ s.allocatedClaims ++ [(e.1, e.2)] := by
          rw [← minsert_of_mfind_none s.allocatedClaims e.1 e.2 hc]
          exact hp
        rcases List.mem_append.mp hp2 with h | h
        · exact hdisj' p h u hu
        · have hp' : p = (e.1, e.2) := by simpa using h
          subst hp'
          have hrel := List.rel_of_pairwise_cons hpw he'
          intro hue
          exact hrel u hue hu

/-- Commit either leaves the durable store unchanged, or (on the staged
success path) replaces the node's record with the staged insertion. -/
theorem driverAllocate_store_cases (store : Store) (cache : StagingCache)
    (claimUID node : String) (w : Bool) :
    (driverAllocate store cache claimUID node w).store = store
    ∨ ∃ crd devs, mfind store node = some crd
        ∧ crd.status = NodeAllocationStateStatusReady
        ∧ mfind crd.spec.allocatedClaims claimUID = none
        ∧ stagingGet cache claimUID = some (node, devs)
        ∧ (driverAllocate store cache claimUID node w).store
            = minsert store node
                ⟨crd.name, crd.status,
                  ⟨crd.spec.allocatableDevices,
                    minsert crd.spec.allocatedClaims claimUID devs⟩⟩ := by
  by_cases hn : node = ""
  · subst hn
    rw [driverAllocate_noNode]
    exact Or.inl rfl
  · cases hfetch : mfind store node with
    | none =>
      rw [driverAllocate_fetchFail store cache claimUID node w hn hfetch]
      exact Or.inl rfl
    | some crd =>
      by_cases hready : crd.status = NodeAllocationStateStatusReady
      · cases hnc : mfind crd.spec.allocatedClaims claimUID with
        | some d =>
          rw [driverAllocate_committed store cache claimUID node w crd hn hfetch hready
            (by simp [hnc])]
          exact Or.inl rfl
        | none =>
          cases hget : stagingGet cache claimUID with
          | none =>
            have hse : stagingExists cache claimUID node = false := by
              unfold stagingExists
              rw [show mfind cache claimUID = none from hget]
            rw [driverAllocate_noStaging store cache claimUID node w crd hn hfetch hready
              hnc hse]
            exact Or.inl rfl
          | some p =>
            obtain ⟨n, devs⟩ := p
            by_cases hnn : n = node
            · subst hnn
              cases w with
              | false =>
                rw [driverAllocate_staged_fail store cache claimUID n crd devs hn hfetch
                  hready hnc hget]
                exact Or.inl rfl
              | true =>
                rw [driverAllocate_staged_ok store cache claimUID n crd devs hn hfetch
                  hready hnc hget]
                exact Or.inr ⟨crd, devs, rfl, hready, hnc, rfl, rfl⟩
            · have hse : stagingExists cache claimUID node = false := by
                unfold stagingExists
                rw [show mfind cache claimUID = some (n, devs) from hget]
                simp [hnn]
              rw [driverAllocate_noStaging store cache claimUID node w crd hn hfetch hready
                hnc hse]
              exact Or.inl rfl
      · rw [driverAllocate_notReady store cache claimUID node w crd hn hfetch hready]
        exact Or.inl rfl

/-- Release either leaves the durable store unchanged, or replaces the
node's record with the claim's entry deleted. -/
theorem driverDeallocate_store_cases (store : Store) (cache : StagingCache)
    (claimUID node : String) (w : Bool) :
    (driverDeallocate store cache claimUID node w).store = store
    ∨ ∃ crd d, mfind store node = some crd
        ∧ mfind crd.spec.allocatedClaims claimUID = some d
        ∧ (driverDeallocate store cache claimUID node w).store
            = minsert store node
                ⟨crd.name, crd.status,
                  ⟨crd.spec.allocatableDevices,
                    merase crd.spec.allocatedClaims claimUID⟩⟩ := by
  by_cases hn : node = ""
  · simp [driverDeallocate, hn]
  · cases hfetch : mfind store node with
    | none => simp [driverDeallocate, hn, hfetch]
    | some crd =>
      cases hc : mfind crd.spec.allocatedClaims claimUID with
      | none => simp [driverDeallocate, hn, hfetch, hc]
      | some d =>
        cases w with
        | true =>
          refine Or.inr ⟨crd, d, rfl, hc, ?_⟩
          simp [driverDeallocate, hn, hfetch, hc]
        | false =>
          simp [driverDeallocate, hn, hfetch, hc]

/-! ## Claim theorems: the record invariant -/

/-- C1 counterexample: a record satisfying the invariant, and a staging
entry naming a device outside the inventory.  Commit succeeds and writes
a record that violates the invariant, so the engine's operations do not
preserve the invariant from an arbitrary staging-cache state. -/
theorem invariant_not_preserved_counterexample :
    specInvariant (⟨[.gpu ⟨"A"⟩], []⟩ : NodeAllocationStateSpec)
    ∧ (driverAllocate [("n1", ⟨"n1", "Ready", ⟨[.gpu ⟨"A"⟩], []⟩⟩)]
        [("c1", ("n1", ⟨⟨[⟨"B"⟩]⟩⟩))] "c1" "n1" true).result
      = .ok (buildAllocationResult "n1" true)
    ∧ mfind (driverAllocate [("n1", ⟨"n1", "Ready", ⟨[.gpu ⟨"A"⟩], []⟩⟩)]
        [("c1", ("n1", ⟨⟨[⟨"B"⟩]⟩⟩))] "c1" "n1" true).store "n1"
      = some ⟨"n1", "Ready", ⟨[.gpu ⟨"A"⟩], [("c1", ⟨⟨[⟨"B"⟩]⟩⟩)]⟩⟩
    ∧ ¬ specInvariant
        (⟨[.gpu ⟨"A"⟩], [("c1", ⟨⟨[⟨"B"⟩]⟩⟩)]⟩ : NodeAllocationStateSpec) := by
  decide

/-- C1 amended: when every record of the store satisfies the invariant
and the entries staged on the node are consistent with the node's record
(each not-yet-committed staged assignment names only inventory devices
and avoids every committed device, staged assignments pairwise
disjoint), all three operations preserve the invariant: Commit and
Release for every record of the resulting store, and Evaluate for the
working record it reconciles. -/
theorem engine_preserves_record_invariant (store : Store) (cache : StagingCache)
    (claimUID node : String) (w : Bool) (allcas : List ClaimAllocation)
    (fetchResult : Option NodeAllocationState)
    (hstore : storeInvariant store)
    (hcons : ∀ crd, mfind store node = some crd →
      stagingConsistent cache node crd.spec)
    (hfetchInv : ∀ crd, fetchResult = some crd → specInvariant crd.spec)
    (hfetchCons : ∀ crd, fetchResult = some crd →
      stagingConsistent cache node crd.spec) :
    storeInvariant (driverAllocate store cache claimUID node w).store
    ∧ storeInvariant (driverDeallocate store cache claimUID node w).store
    ∧ ∀ s', (driverUnsuitableNode fetchResult cache allcas node).working = some s' →
        specInvariant s' := by
  refine ⟨?_, ?_, ?_⟩
  · rcases driverAllocate_store_cases store cache claimUID node w with
      h | ⟨crd, devs, hfetch, hready, hnc, hget, h⟩
    · rw [h]
      exact hstore
    · rw [h]
      apply storeInvariant_minsert store node _ hstore
      have hmem := stagingOnNode_mem cache claimUID node devs hget
      obtain ⟨hpw, hcons'⟩ := hcons crd hfetch
      obtain ⟨hsub, hdisj⟩ := hcons' (claimUID, devs) hmem hnc
      exact specInvariant_insert crd.spec claimUID devs (hstore node crd hfetch)
        hnc hsub hdisj
  · rcases driverDeallocate_store_cases store cache claimUID node w with
      h | ⟨crd, d, hfetch, hc, h⟩
    · rw [h]
      exact hstore
    · rw [h]
      apply storeInvariant_minsert store node _ hstore
      exact specInvariant_erase crd.spec claimUID (hstore node crd hfetch)
  · intro s' hs'
    cases fetchResult with
    | none => simp [driverUnsuitableNode] at hs'
    | some crd =>
      by_cases hready : crd.status = NodeAllocationStateStatusReady
      · have hs'2 : (reconcile crd.spec node cache).1 = s' := by
          simpa [driverUnsuitableNode, hready, gpuUnsuitableNode] using hs'
        rw [← hs'2]
        obtain ⟨hpw, hcons'⟩ := hfetchCons crd rfl
        exact reconcileFold_invariant (stagingOnNode cache node) crd.spec cache
          (hfetchInv crd rfl) hpw hcons'
      · simp [driverUnsuitableNode, hready] at hs'

/-- Witness for the amended C1: two-device inventory, claim c0 committed
to device B, claim c1 consistently staged on device A; Commit, Release
and Evaluate each preserve the invariant. -/
theorem engine_preserves_record_invariant_witness :
    storeInvariant (driverAllocate
        [("n1", ⟨"n1", "Ready", ⟨[.gpu ⟨"A"⟩, .gpu ⟨"B"⟩], [("c0", ⟨⟨[⟨"B"⟩]⟩⟩)]⟩⟩)]
        [("c1", ("n1", ⟨⟨[⟨"A"⟩]⟩⟩))] "c1" "n1" true).store
    ∧ storeInvariant (driverDeallocate
        [("n1", ⟨"n1", "Ready", ⟨[.gpu ⟨"A"⟩, .gpu ⟨"B"⟩], [("c0", ⟨⟨[⟨"B"⟩]⟩⟩)]⟩⟩)]
        [("c1", ("n1", ⟨⟨[⟨"A"⟩]⟩⟩))] "c1" "n1" true).store
    ∧ ∀ s', (driverUnsuitableNode
        (some ⟨"n1", "Ready", ⟨[.gpu ⟨"A"⟩, .gpu ⟨"B"⟩], [("c0", ⟨⟨[⟨"B"⟩]⟩⟩)]⟩⟩)
        [("c1", ("n1", ⟨⟨[⟨"A"⟩]⟩⟩))] [] "n1").working = some s' →
        specInvariant s' :=
  engine_preserves_record_invariant
    [("n1", ⟨"n1", "Ready", ⟨[.gpu ⟨"A"⟩, .gpu ⟨"B"⟩], [("c0", ⟨⟨[⟨"B"⟩]⟩⟩)]⟩⟩)]
    [("c1", ("n1", ⟨⟨[⟨"A"⟩]⟩⟩))] "c1" "n1" true []
    (some ⟨"n1", "Ready", ⟨[.gpu ⟨"A"⟩, .gpu ⟨"B"⟩], [("c0", ⟨⟨[⟨"B"⟩]⟩⟩)]⟩⟩)
    (by
      intro n c h
      rw [mfind_cons] at h
      split at h
      · injection h with h2
        rw [← h2]
        decide
      · exact absurd h (by simp [mfind]))
    (by
      intro crd h
      rw [mfind_cons] at h
      split at h
      · injection h with h2
        rw [← h2]
        decide
      · exact absurd h (by simp [mfind]))
    (by
      intro crd h
      injection h with h2
      rw [← h2]
      decide)
    (by
      intro crd h
      injection h with h2
      rw [← h2]
      decide)

end XCudaDra
